import Mathlib

set_option maxHeartbeats 1000000

/-! Shallow embedding of the transaction-workflow core of the
avalanche-testing repository: the RPC workflow runner
(acceptance pollers, funding, cross-chain transfers, batch issue/await)
and the bombard load-test executor. External RPC endpoints are modelled
as oracles: functions giving the response the remote node returns to
each call. Each effectful operation is embedded as a pure function from
its oracle to its Go result, mostly paired with a trace of the
observable API interactions it performed, in order. -/

/-- P-chain transaction status (the subset of `platformvm.Status`
inspected by the code). -/
inductive PTxStatus where
  | committed
  | dropped
  | aborted
  | processing
deriving DecidableEq

/-- X-chain transaction status (the subset of `snow/choices.Status`
inspected by the code). -/
inductive XTxStatus where
  | accepted
  | rejected
  | processing
  | unknown
deriving DecidableEq

/-- Structured Go error values, mirroring the errors the source builds
with `stacktrace.NewError`, `stacktrace.Propagate` and `fmt.Errorf`.
`ctx` is `stacktrace.Propagate`: wrapping an inner error with a context
message. -/
inductive Err where
  | api (msg : String)
  | rejectedX (txID : Nat)
  | timedOutX (txID : Nat)
  | abandonedP (txID : Nat) (status : PTxStatus)
  | timedOutP (txID : Nat)
  | balanceMismatch (address : String) (expected actual : Nat)
  | plain (msg : String)
  | ctx (msg : String) (inner : Err)
deriving DecidableEq

/-- `waitForXchainTransactionAcceptance` (rpc_workflow_runner.go): polls
`GetTxStatus` once per second until the acceptance timeout elapses.
Each list entry is the response to one poll; the list length is the
number of polls the timeout window admits.  Returns the Go result (nil
on acceptance, an error on rejection/timeout/query failure) paired with
the number of polls actually made. -/
def waitForXchainTransactionAcceptance (txID : Nat) :
    List (Except Err XTxStatus) → Except Err Unit × Nat
  | [] => (.error (.timedOutX txID), 0)
  | q :: qs =>
    match q with
    | .error e => (.error (.ctx "Failed to get status." e), 1)
    | .ok .accepted => (.ok (), 1)
    | .ok .rejected => (.error (.rejectedX txID), 1)
    | .ok _ =>
      match waitForXchainTransactionAcceptance txID qs with
      | (r, n) => (r, n + 1)

/-- `waitForPChainTransactionAcceptance` (rpc_workflow_runner.go): the
P-chain analogue; `Committed` is terminal-accept, `Dropped` and
`Aborted` are terminal-reject. -/
def waitForPChainTransactionAcceptance (txID : Nat) :
    List (Except Err PTxStatus) → Except Err Unit × Nat
  | [] => (.error (.timedOutP txID), 0)
  | q :: qs =>
    match q with
    | .error e => (.error (.ctx "Failed to get status" e), 1)
    | .ok .committed => (.ok (), 1)
    | .ok .dropped => (.error (.abandonedP txID .dropped), 1)
    | .ok .aborted => (.error (.abandonedP txID .aborted), 1)
    | .ok .processing =>
      match waitForPChainTransactionAcceptance txID qs with
      | (r, n) => (r, n + 1)

/-- Terminal X-chain statuses: those on which the spec says the poller
must return at once. -/
def xTerminal : XTxStatus → Bool
  | .accepted => true
  | .rejected => true
  | _ => false

/-- Terminal P-chain statuses. -/
def pTerminal : PTxStatus → Bool
  | .committed => true
  | .dropped => true
  | .aborted => true
  | .processing => false

/-- Position and value of the first terminal status in an observed
status sequence, if any. -/
def firstTerminalX : List XTxStatus → Option (Nat × XTxStatus)
  | [] => none
  | s :: rest =>
    if xTerminal s then some (0, s)
    else (firstTerminalX rest).map (fun p => (p.1 + 1, p.2))

/-- Position and value of the first terminal P-chain status, if any. -/
def firstTerminalP : List PTxStatus → Option (Nat × PTxStatus)
  | [] => none
  | s :: rest =>
    if pTerminal s then some (0, s)
    else (firstTerminalP rest).map (fun p => (p.1 + 1, p.2))

/-- The behavior the spec prescribes for the X-chain acceptance poller,
written from the spec's words: success exactly when the first terminal
status observed within the window is `Accepted`; a rejection error,
after exactly `i + 1` polls (even if the window would admit more), when
the first terminal status is `Rejected`; and a timeout error naming the
transaction ID, after exhausting the whole window, when no terminal
status is observed. -/
def pollSpecX (txID : Nat) (ss : List XTxStatus) : Except Err Unit × Nat :=
  match firstTerminalX ss with
  | none => (.error (.timedOutX txID), ss.length)
  | some (i, s) =>
    (if s = .accepted then .ok () else .error (.rejectedX txID), i + 1)

/-- The behavior the spec prescribes for the P-chain acceptance poller:
`Committed` is terminal-accept; `Dropped`/`Aborted` are terminal-reject
and the error names the transaction and the observed terminal state. -/
def pollSpecP (txID : Nat) (ps : List PTxStatus) : Except Err Unit × Nat :=
  match firstTerminalP ps with
  | none => (.error (.timedOutP txID), ps.length)
  | some (i, s) =>
    (if s = .committed then .ok () else .error (.abandonedP txID s), i + 1)

theorem waitX_eq_pollSpecX (txID : Nat) (ss : List XTxStatus) :
    waitForXchainTransactionAcceptance txID (ss.map .ok) = pollSpecX txID ss := by
  induction ss with
  | nil => rfl
  | cons s rest ih =>
    cases s with
    | accepted => rfl
    | rejected => rfl
    | processing =>
      simp only [List.map_cons, waitForXchainTransactionAcceptance, ih,
        pollSpecX, firstTerminalX, xTerminal]
      rcases hft : firstTerminalX rest with _ | ⟨i, t⟩ <;>
        simp [hft, List.length_cons]
    | unknown =>
      simp only [List.map_cons, waitForXchainTransactionAcceptance, ih,
        pollSpecX, firstTerminalX, xTerminal]
      rcases hft : firstTerminalX rest with _ | ⟨i, t⟩ <;>
        simp [hft, List.length_cons]

theorem waitP_eq_pollSpecP (txID : Nat) (ps : List PTxStatus) :
    waitForPChainTransactionAcceptance txID (ps.map .ok) = pollSpecP txID ps := by
  induction ps with
  | nil => rfl
  | cons s rest ih =>
    cases s with
    | committed => rfl
    | dropped => rfl
    | aborted => rfl
    | processing =>
      simp only [List.map_cons, waitForPChainTransactionAcceptance, ih,
        pollSpecP, firstTerminalP, pTerminal]
      rcases hft : firstTerminalP rest with _ | ⟨i, t⟩ <;>
        simp [hft, List.length_cons]

/-- C1: for every transaction ID and every sequence of statuses the
status endpoint reports (one per poll the acceptance timeout window
admits), each acceptance poller behaves exactly as the spec-derived
poll behavior: it returns success iff the first terminal status
observed within the window is terminal-accept (`Accepted` on the X
chain, `Committed` on the P chain); upon a terminal-reject status
(`Rejected`; `Dropped`/`Aborted`) at position `i` it returns a
rejection error having made exactly `i + 1` polls, i.e. immediately,
even though the window would admit more polls; and when no terminal
status appears in the window it returns a timeout error naming the
transaction ID after exhausting the window. -/
theorem acceptance_pollers_match_spec (txID : Nat)
    (ss : List XTxStatus) (ps : List PTxStatus) :
    waitForXchainTransactionAcceptance txID (ss.map .ok) = pollSpecX txID ss ∧
    waitForPChainTransactionAcceptance txID (ps.map .ok) = pollSpecP txID ps :=
  ⟨waitX_eq_pollSpecX txID ss, waitP_eq_pollSpecP txID ps⟩

/-- One observable API interaction of a cross-chain transfer.  The
`await` events record whether the acceptance wait succeeded. -/
inductive TEv where
  | submitExportX
  | awaitExportX (accepted : Bool)
  | submitImportP
  | awaitImportP (accepted : Bool)
  | submitExportP
  | awaitExportP (accepted : Bool)
  | submitImportX
  | awaitImportX (accepted : Bool)
deriving DecidableEq

/-- Responses of the node to the calls a cross-chain transfer makes.
`importAVAX_X` is a pair because Go's `XChainAPI().ImportAVAX` returns
both a transaction ID and an error value; the source reads both. -/
structure TransferOracle where
  exportAVAX_X : Except Err Nat
  importAVAX_P : Except Err Nat
  exportAVAX_P : Except Err Nat
  importAVAX_X : Nat × Option Err
  xStatusPolls : Nat → List (Except Err XTxStatus)
  pStatusPolls : Nat → List (Except Err PTxStatus)

/-- `TransferAvaXChainToPChain` (rpc_workflow_runner.go): export AVAX
from the X chain, wait for X-chain acceptance, then import to the P
chain and wait for P-chain acceptance, failing eagerly at each step. -/
def TransferAvaXChainToPChain (o : TransferOracle) :
    Except Err Unit × List TEv :=
  match o.exportAVAX_X with
  | .error e =>
    (.error (.ctx "Failed to export AVAX to pchainAddress" e),
     [.submitExportX])
  | .ok txID =>
    match (waitForXchainTransactionAcceptance txID (o.xStatusPolls txID)).1 with
    | .error e =>
      (.error (.ctx "" e), [.submitExportX, .awaitExportX false])
    | .ok _ =>
      match o.importAVAX_P with
      | .error e =>
        (.error (.ctx "Failed import AVAX to pchainAddress" e),
         [.submitExportX, .awaitExportX true, .submitImportP])
      | .ok importTxID =>
        match (waitForPChainTransactionAcceptance importTxID
                (o.pStatusPolls importTxID)).1 with
        | .error e =>
          (.error (.ctx "Failed to Accept ImportTx" e),
           [.submitExportX, .awaitExportX true, .submitImportP,
            .awaitImportP false])
        | .ok _ =>
          (.ok (),
           [.submitExportX, .awaitExportX true, .submitImportP,
            .awaitImportP true])

/-- `TransferAvaPChainToXChain` (rpc_workflow_runner.go): export AVAX
from the P chain, wait for P-chain acceptance, then import to the X
chain and wait for X-chain acceptance.  Faithful to the source: the
error value returned by `XChainAPI().ImportAVAX` is overwritten by the
next assignment without ever being inspected (`txID, err := ...` is
immediately followed by `err = runner.waitForXchainTransactionAcceptance(txID)`),
so only the transaction-ID component of `importAVAX_X` is used. -/
def TransferAvaPChainToXChain (o : TransferOracle) :
    Except Err Unit × List TEv :=
  match o.exportAVAX_P with
  | .error e =>
    (.error (.ctx "Failed to export AVAX to xChainAddress" e),
     [.submitExportP])
  | .ok exportTxID =>
    match (waitForPChainTransactionAcceptance exportTxID
            (o.pStatusPolls exportTxID)).1 with
    | .error e =>
      (.error (.ctx "Failed to accept ExportTx" e),
       [.submitExportP, .awaitExportP false])
    | .ok _ =>
      match o.importAVAX_X with
      | (txID, _discardedErr) =>
        match (waitForXchainTransactionAcceptance txID (o.xStatusPolls txID)).1 with
        | .error e =>
          (.error
            (.ctx "Failed to wait for acceptance of transaction on XChain." e),
           [.submitExportP, .awaitExportP true, .submitImportX,
            .awaitImportX false])
        | .ok _ =>
          (.ok (),
           [.submitExportP, .awaitExportP true, .submitImportX,
            .awaitImportX true])

/-- Scans a transfer trace, tracking whether the X-chain export and the
P-chain export have each been confirmed accepted; an import submission
to one ledger is allowed only after the export on the other ledger has
been confirmed. -/
def importGuardOK : Bool → Bool → List TEv → Bool
  | _, _, [] => true
  | xc, pc, ev :: rest =>
    match ev with
    | .submitImportP => xc && importGuardOK xc pc rest
    | .submitImportX => pc && importGuardOK xc pc rest
    | .awaitExportX b => importGuardOK (xc || b) pc rest
    | .awaitExportP b => importGuardOK xc (pc || b) rest
    | _ => importGuardOK xc pc rest

/-- C3: in both cross-ledger transfer operations, for every possible
node behavior, the import transaction is never submitted to the
destination ledger before the export transaction has been confirmed
accepted on the source ledger: every trace satisfies the guard that a
`submitImportP` is preceded by a successful `awaitExportX`, and a
`submitImportX` by a successful `awaitExportP`. -/
theorem transfers_import_only_after_export_confirmed (o : TransferOracle) :
    importGuardOK false false (TransferAvaXChainToPChain o).2 = true ∧
    importGuardOK false false (TransferAvaPChainToXChain o).2 = true := by
  constructor
  · rcases hx : o.exportAVAX_X with e | txID
    · simp [TransferAvaXChainToPChain, hx, importGuardOK]
    · rcases hw : (waitForXchainTransactionAcceptance txID (o.xStatusPolls txID)).1 with e | u
      · simp [TransferAvaXChainToPChain, hx, hw, importGuardOK]
      · rcases hi : o.importAVAX_P with e | itx
        · simp [TransferAvaXChainToPChain, hx, hw, hi, importGuardOK]
        · rcases hw2 : (waitForPChainTransactionAcceptance itx (o.pStatusPolls itx)).1 with e | u2
          · simp [TransferAvaXChainToPChain, hx, hw, hi, hw2, importGuardOK]
          · simp [TransferAvaXChainToPChain, hx, hw, hi, hw2, importGuardOK]
  · rcases hx : o.exportAVAX_P with e | etx
    · simp [TransferAvaPChainToXChain, hx, importGuardOK]
    · rcases hw : (waitForPChainTransactionAcceptance etx (o.pStatusPolls etx)).1 with e | u
      · simp [TransferAvaPChainToXChain, hx, hw, importGuardOK]
      · rcases hi : o.importAVAX_X with ⟨txID, de⟩
        rcases hw2 : (waitForXchainTransactionAcceptance txID (o.xStatusPolls txID)).1 with e | u2
        · simp [TransferAvaPChainToXChain, hx, hw, hi, hw2, importGuardOK]
        · simp [TransferAvaPChainToXChain, hx, hw, hi, hw2, importGuardOK]

/-- An oracle on which the X-chain import submission fails while every
other call succeeds: the P-chain export is accepted, `ImportAVAX` on
the X chain returns transaction ID 0 together with an error, and the
status endpoint reports the zero transaction accepted. -/
def importFailOracle : TransferOracle where
  exportAVAX_X := .ok 0
  importAVAX_P := .ok 0
  exportAVAX_P := .ok 7
  importAVAX_X := (0, some (.api "ImportAVAX failed"))
  xStatusPolls := fun _ => [.ok .accepted]
  pStatusPolls := fun _ => [.ok .committed]

/-- C4 (code bug): `TransferAvaPChainToXChain` does not fail eagerly on
an X-chain import submission error.  On `importFailOracle` the import
submission returns an error, yet the operation proceeds to the
acceptance wait and returns success: the source overwrites the error
from `XChainAPI().ImportAVAX` without checking it. -/
theorem transferPChainToXChain_ignores_import_error :
    TransferAvaPChainToXChain importFailOracle =
      (.ok (), [.submitExportP, .awaitExportP true, .submitImportX,
                .awaitImportX true]) ∧
    importFailOracle.importAVAX_X.2 = some (.api "ImportAVAX failed") := by
  constructor
  · rfl
  · rfl

/-- One observable API interaction of `FundXChainAddresses`. -/
inductive FEv where
  | send (idx : Nat) (amount : Nat)
  | awaitTx (txID : Nat) (accepted : Bool)
deriving DecidableEq

/-- Node responses to the calls `FundXChainAddresses` makes: the
outcome of the `Send` for each address position, and the status-poll
responses for each resulting transaction ID. -/
structure FundOracle where
  send : Nat → Except Err Nat
  xStatusPolls : Nat → List (Except Err XTxStatus)

/-- `FundXChainAddresses` (rpc_workflow_runner.go): for each target
address in order, submits a `Send` of `amount` and blocks on
`waitForXchainTransactionAcceptance` for the resulting transaction
before touching the next address; both a submission error and a wait
error are returned as-is at once.  `k` is the position of the first
remaining address. -/
def FundXChainAddresses (o : FundOracle) (amount : Nat) :
    Nat → List String → Except Err Unit × List FEv
  | _, [] => (.ok (), [])
  | k, _addr :: rest =>
    match o.send k with
    | .error e => (.error e, [.send k amount])
    | .ok txID =>
      match (waitForXchainTransactionAcceptance txID (o.xStatusPolls txID)).1 with
      | .error e => (.error e, [.send k amount, .awaitTx txID false])
      | .ok _ =>
        match FundXChainAddresses o amount (k + 1) rest with
        | (r, tr) => (r, .send k amount :: .awaitTx txID true :: tr)

/-- Checks that a funding trace is strictly sequential and
non-overlapping: submissions occur in address order starting at `k`,
each submission is immediately followed by the acceptance wait for its
own transaction before any further submission, and nothing at all
follows a failed submission or a failed wait. -/
def fundSeqOK : Nat → List FEv → Bool
  | _, [] => true
  | k, [.send i _] => i == k
  | k, .send i _ :: .awaitTx _ b :: rest =>
    i == k && (if b then fundSeqOK (k + 1) rest else rest.isEmpty)
  | _, _ => false

/-- The first error a sequential funding pass over the addresses
encounters, taking for each address first the submission outcome and
then the acceptance-wait outcome, in address order. -/
def fundFirstError (o : FundOracle) : Nat → List String → Option Err
  | _, [] => none
  | k, _ :: rest =>
    match o.send k with
    | .error e => some e
    | .ok txID =>
      match (waitForXchainTransactionAcceptance txID (o.xStatusPolls txID)).1 with
      | .error e => some e
      | .ok _ => fundFirstError o (k + 1) rest

theorem fundSeqOK_run (o : FundOracle) (amount : Nat) :
    ∀ (addrs : List String) (k : Nat),
      fundSeqOK k (FundXChainAddresses o amount k addrs).2 = true := by
  intro addrs
  induction addrs with
  | nil => intro k; rfl
  | cons a rest ih =>
    intro k
    rcases hs : o.send k with e | txID
    · simp [FundXChainAddresses, hs, fundSeqOK]
    · rcases hw : (waitForXchainTransactionAcceptance txID (o.xStatusPolls txID)).1 with e | u
      · simp [FundXChainAddresses, hs, hw, fundSeqOK]
      · rcases hr : FundXChainAddresses o amount (k + 1) rest with ⟨r, tr⟩
        have := ih (k + 1)
        rw [hr] at this
        simp [FundXChainAddresses, hs, hw, hr, fundSeqOK, this]

theorem fund_result_eq_firstError (o : FundOracle) (amount : Nat) :
    ∀ (addrs : List String) (k : Nat),
      (FundXChainAddresses o amount k addrs).1 =
        (match fundFirstError o k addrs with
         | some e => .error e
         | none => .ok ()) := by
  intro addrs
  induction addrs with
  | nil => intro k; rfl
  | cons a rest ih =>
    intro k
    rcases hs : o.send k with e | txID
    · simp [FundXChainAddresses, hs, fundFirstError]
    · rcases hw : (waitForXchainTransactionAcceptance txID (o.xStatusPolls txID)).1 with e | u
      · simp [FundXChainAddresses, hs, hw, fundFirstError]
      · rcases hr : FundXChainAddresses o amount (k + 1) rest with ⟨r, tr⟩
        have := ih (k + 1)
        rw [hr] at this
        simp [FundXChainAddresses, hs, hw, hr, fundFirstError, this]

/-- C8: for every list of target addresses, every amount and every node
behavior, `FundXChainAddresses` produces a strictly sequential trace —
one transfer submission per address, in order, each followed
immediately by the acceptance wait for its own transaction before the
next submission, with nothing following a failure — and its result is
exactly the first error encountered among submissions and acceptance
waits (success iff there is none). -/
theorem fundXChainAddresses_sequential_and_first_error
    (o : FundOracle) (amount : Nat) (addrs : List String) :
    fundSeqOK 0 (FundXChainAddresses o amount 0 addrs).2 = true ∧
    (FundXChainAddresses o amount 0 addrs).1 =
      (match fundFirstError o 0 addrs with
       | some e => .error e
       | none => .ok ()) :=
  ⟨fundSeqOK_run o amount addrs 0, fund_result_eq_firstError o amount addrs 0⟩

/-- One observable API interaction of the batch issue / batch await
pair. -/
inductive IEv where
  | issueTx (idx : Nat)
  | awaitTx (txID : Nat) (accepted : Bool)
deriving DecidableEq

/-- Node responses to `IssueTx`, keyed by list position (the serialized
transaction payloads are opaque byte strings). -/
structure IssueOracle where
  issueTx : Nat → Except Err Nat
  xStatusPolls : Nat → List (Except Err XTxStatus)

/-- `IssueTxList` (rpc_workflow_runner.go): submits each serialized
transaction in list order via `IssueTx`, never polling for any status
in between, and returns at the first failed submission, wrapped with
context; transactions after the failure are not submitted.  `k` is the
position of the first remaining transaction. -/
def IssueTxList (o : IssueOracle) : Nat → List Nat → Except Err Unit × List IEv
  | _, [] => (.ok (), [])
  | k, _tx :: rest =>
    match o.issueTx k with
    | .error e =>
      (.error (.ctx "Failed to issue transaction." e), [.issueTx k])
    | .ok _ =>
      match IssueTxList o (k + 1) rest with
      | (r, tr) => (r, .issueTx k :: tr)

/-- `AwaitXChainTxs` (rpc_workflow_runner.go): blocks on each
transaction ID in order via the X-chain acceptance poller and returns
the first failure encountered. -/
def AwaitXChainTxs (polls : Nat → List (Except Err XTxStatus)) :
    List Nat → Except Err Unit × List IEv
  | [] => (.ok (), [])
  | txID :: rest =>
    match (waitForXchainTransactionAcceptance txID (polls txID)).1 with
    | .error e => (.error e, [.awaitTx txID false])
    | .ok _ =>
      match AwaitXChainTxs polls rest with
      | (r, tr) => (r, .awaitTx txID true :: tr)

/-- Position and value of the first failed submission, scanning the
submission outcomes in list order. -/
def issueFirstError (o : IssueOracle) : Nat → List Nat → Option (Nat × Err)
  | _, [] => none
  | k, _ :: rest =>
    match o.issueTx k with
    | .error e => some (k, e)
    | .ok _ => issueFirstError o (k + 1) rest

/-- The first poller failure over the transaction IDs, in list order. -/
def awaitFirstError (polls : Nat → List (Except Err XTxStatus)) :
    List Nat → Option Err
  | [] => none
  | txID :: rest =>
    match (waitForXchainTransactionAcceptance txID (polls txID)).1 with
    | .error e => some e
    | .ok _ => awaitFirstError polls rest

theorem issueFirstError_ge (o : IssueOracle) :
    ∀ (txs : List Nat) (k i : Nat) (e : Err),
      issueFirstError o k txs = some (i, e) → k ≤ i := by
  intro txs
  induction txs with
  | nil => intro k i e h; simp [issueFirstError] at h
  | cons t rest ih =>
    intro k i e h
    rcases hs : o.issueTx k with e2 | t2
    · simp [issueFirstError, hs] at h
      omega
    · simp [issueFirstError, hs] at h
      have := ih (k + 1) i e h
      omega

theorem issueTxList_trace (o : IssueOracle) :
    ∀ (txs : List Nat) (k : Nat),
      (IssueTxList o k txs).2 =
        (List.range (match issueFirstError o k txs with
                     | none => txs.length
                     | some (i, _) => i + 1 - k)).map
          (fun j => .issueTx (k + j)) := by
  intro txs
  induction txs with
  | nil => intro k; rfl
  | cons t rest ih =>
    intro k
    rcases hs : o.issueTx k with e | txID
    · simp [IssueTxList, issueFirstError, hs, List.range_succ_eq_map]
    · rcases hr : IssueTxList o (k + 1) rest with ⟨r, tr⟩
      have htr := ih (k + 1)
      rw [hr] at htr
      have harg : (fun j => IEv.issueTx (k + 1 + j)) =
          ((fun j => IEv.issueTx (k + j)) ∘ Nat.succ) := by
        funext j
        simp only [Function.comp]
        congr 1
        omega
      rcases hf : issueFirstError o (k + 1) rest with _ | ⟨i, e⟩
      · rw [hf] at htr
        simp only [IssueTxList, issueFirstError, hs, hr, htr, hf,
          List.length_cons]
        rw [List.range_succ_eq_map, List.map_cons, List.map_map, harg]
        rfl
      · rw [hf] at htr
        have hik : k + 1 ≤ i := issueFirstError_ge o rest (k + 1) i e hf
        simp only [IssueTxList, issueFirstError, hs, hr, htr, hf]
        have h1 : i + 1 - k = (i + 1 - (k + 1)) + 1 := by omega
        rw [h1, List.range_succ_eq_map, List.map_cons, List.map_map, harg]
        rfl

theorem issueTxList_result (o : IssueOracle) :
    ∀ (txs : List Nat) (k : Nat),
      (IssueTxList o k txs).1 =
        (match issueFirstError o k txs with
         | some (_, e) => .error (.ctx "Failed to issue transaction." e)
         | none => .ok ()) := by
  intro txs
  induction txs with
  | nil => intro k; rfl
  | cons t rest ih =>
    intro k
    rcases hs : o.issueTx k with e | txID
    · simp [IssueTxList, issueFirstError, hs]
    · rcases hr : IssueTxList o (k + 1) rest with ⟨r, tr⟩
      have := ih (k + 1)
      rw [hr] at this
      simp [IssueTxList, issueFirstError, hs, hr, this]

theorem awaitXChainTxs_result (polls : Nat → List (Except Err XTxStatus)) :
    ∀ (ids : List Nat),
      (AwaitXChainTxs polls ids).1 =
        (match awaitFirstError polls ids with
         | some e => .error e
         | none => .ok ()) := by
  intro ids
  induction ids with
  | nil => rfl
  | cons t rest ih =>
    rcases hw : (waitForXchainTransactionAcceptance t (polls t)).1 with e | u
    · simp [AwaitXChainTxs, awaitFirstError, hw]
    · rcases hr : AwaitXChainTxs polls rest with ⟨r, tr⟩
      rw [hr] at ih
      simp [AwaitXChainTxs, awaitFirstError, hw, hr, ih]

/-- C9: for every precomputed transaction list and every node behavior,
`IssueTxList` submits the transactions in exactly list order with no
acceptance wait interleaved — its trace is the contiguous sequence of
submission events from position 0 up to the whole list if every
submission succeeds, and up to and including the first failed
submission otherwise, so transactions after the failure are not
submitted — and returns the first submission error (wrapped with
context) or success; `AwaitXChainTxs` checks the IDs in list order and
returns the first poller failure, succeeding iff none fails. -/
theorem issueTxList_ordered_failFast_await_first_failure
    (o : IssueOracle) (txs : List Nat)
    (polls : Nat → List (Except Err XTxStatus)) (ids : List Nat) :
    (IssueTxList o 0 txs).2 =
      (List.range (match issueFirstError o 0 txs with
                   | none => txs.length
                   | some (i, _) => i + 1)).map (fun j => .issueTx j) ∧
    (IssueTxList o 0 txs).1 =
      (match issueFirstError o 0 txs with
       | some (_, e) => .error (.ctx "Failed to issue transaction." e)
       | none => .ok ()) ∧
    (AwaitXChainTxs polls ids).1 =
      (match awaitFirstError polls ids with
       | some e => .error e
       | none => .ok ()) := by
  refine ⟨?_, issueTxList_result o txs 0, awaitXChainTxs_result polls ids⟩
  have := issueTxList_trace o txs 0
  simpa using this

/-- One transaction of a consecutive chain: the amount of the single
spendable output it consumes and the amount of the single change
output it produces (the remaining balance after the fee). -/
structure ChainTx where
  inputAmount : Nat
  changeAmount : Nat
deriving DecidableEq

/-- Modelled from the spec: the Transaction Chain Builder
`CreateConsecutiveTransactions` is called from the bombard executor but
its definition is not part of the provided sources, so it is modelled
from the spec's Transaction Chain Builder section: starting from a
single spendable record of value `balance`, produce `n` consecutive
signed transactions, each consuming the whole remaining balance and
sending `balance - fee` back as the single change output, so transaction
`k` spends exactly the change output of transaction `k - 1`; if the fee
would drive the balance negative, or signing transaction `k` fails
(`signOk k = false`), the whole construction fails with an error and no
partial chain is returned. -/
def buildConsecutive (fee : Nat) (signOk : Nat → Bool) :
    Nat → Nat → Nat → Except Err (List ChainTx)
  | 0, _, _ => .ok []
  | n + 1, balance, k =>
    if balance < fee then .error (.plain "insufficient funds")
    else if !signOk k then .error (.plain "signing failed")
    else
      match buildConsecutive fee signOk n (balance - fee) (k + 1) with
      | .error e => .error e
      | .ok rest => .ok ({ inputAmount := balance,
                           changeAmount := balance - fee } :: rest)

/-- Modelled from the spec: `CreateConsecutiveTransactions` entry
point — build `numTxs` consecutive transactions out of a single UTXO of
value `utxoAmount`, paying `txFee` per transaction. -/
def CreateConsecutiveTransactions (utxoAmount numTxs txFee : Nat)
    (signOk : Nat → Bool) : Except Err (List ChainTx) :=
  buildConsecutive txFee signOk numTxs utxoAmount 0

theorem buildConsecutive_ok (fee : Nat) (signOk : Nat → Bool)
    (hsign : ∀ k, signOk k = true) :
    ∀ (n : Nat) (extra k : Nat),
      buildConsecutive fee signOk n (n * fee + extra) k =
        .ok ((List.range n).map
          (fun j => { inputAmount := (n - j) * fee + extra,
                      changeAmount := (n - (j + 1)) * fee + extra })) := by
  intro n
  induction n with
  | zero => intro extra k; rfl
  | succ m ih =>
    intro extra k
    have h0 : (m + 1) * fee = m * fee + fee := by ring
    have hge : ¬ ((m + 1) * fee + extra < fee) := by omega
    have hbal : (m + 1) * fee + extra - fee = m * fee + extra := by omega
    have hih := ih extra (k + 1)
    have harg :
        ((fun j => ChainTx.mk ((m + 1 - j) * fee + extra)
            ((m + 1 - (j + 1)) * fee + extra)) ∘ Nat.succ) =
          (fun j => ChainTx.mk ((m - j) * fee + extra)
            ((m - (j + 1)) * fee + extra)) := by
      funext j
      have h2 : m + 1 - (j + 1) = m - j := by omega
      have h3 : m + 1 - (j + 1 + 1) = m - (j + 1) := by omega
      show ChainTx.mk ((m + 1 - (j + 1)) * fee + extra)
          ((m + 1 - (j + 1 + 1)) * fee + extra) =
        ChainTx.mk ((m - j) * fee + extra) ((m - (j + 1)) * fee + extra)
      rw [h2, h3]
    simp only [buildConsecutive, if_neg hge, hsign k, ite_true, hbal, hih]
    rw [List.range_succ_eq_map, List.map_cons, List.map_map, harg]
    simp [hbal]

theorem buildConsecutive_insufficient (fee : Nat) (signOk : Nat → Bool) :
    ∀ (n V k : Nat), V < n * fee →
      ∃ e, buildConsecutive fee signOk n V k = .error e := by
  intro n
  induction n with
  | zero => intro V k h; omega
  | succ m ih =>
    intro V k h
    by_cases hlt : V < fee
    · exact ⟨.plain "insufficient funds", by simp [buildConsecutive, hlt]⟩
    · by_cases hsk : signOk k
      · have hle : V - fee < m * fee := by
          have : (m + 1) * fee = m * fee + fee := by ring
          omega
        obtain ⟨e, he⟩ := ih (V - fee) (k + 1) hle
        exact ⟨e, by simp [buildConsecutive, hlt, hsk, he]⟩
      · exact ⟨.plain "signing failed", by simp [buildConsecutive, hlt, hsk]⟩

theorem buildConsecutive_signFail (fee : Nat) (signOk : Nat → Bool) :
    ∀ (n V k j : Nat), j < n → signOk (k + j) = false →
      ∃ e, buildConsecutive fee signOk n V k = .error e := by
  intro n
  induction n with
  | zero => intro V k j h _; omega
  | succ m ih =>
    intro V k j hj hs
    by_cases hlt : V < fee
    · exact ⟨.plain "insufficient funds", by simp [buildConsecutive, hlt]⟩
    · rcases hsk : signOk k with _ | _
      · exact ⟨.plain "signing failed", by simp [buildConsecutive, hlt, hsk]⟩
      · cases j with
        | zero => simp [hsk] at hs
        | succ j2 =>
          have hs2 : signOk (k + 1 + j2) = false := by
            have : k + 1 + j2 = k + (j2 + 1) := by omega
            rw [this]
            exact hs
          obtain ⟨e, he⟩ := ih (V - fee) (k + 1) j2 (by omega) hs2
          exact ⟨e, by simp [buildConsecutive, hlt, hsk, he]⟩

/-- C2 (spec-modelled): for every target count `N` and fee `F`, given a
single spendable UTXO of value `(N + 1) * F` and successful signing,
the chain builder produces exactly `N` signed transactions whose `j`-th
member consumes `(N + 1 - j) * F` and leaves change `(N - j) * F`, so
each transaction spends exactly the single change output of its
predecessor, the balance decreases by exactly `F` per step, and the
final leftover balance is exactly `F`; while any insufficient-funds
condition (seed value below `N * F`) or any signing failure within the
first `N` signatures yields a construction error, never a partial
chain. -/
theorem createConsecutive_chain_correct (N F : Nat) (signOk : Nat → Bool) :
    ((∀ k, signOk k = true) →
      ∃ txs, CreateConsecutiveTransactions ((N + 1) * F) N F signOk = .ok txs ∧
        txs.length = N ∧
        (∀ j, ∀ hj : j < txs.length,
          (txs.get ⟨j, hj⟩).inputAmount = (N + 1 - j) * F ∧
          (txs.get ⟨j, hj⟩).changeAmount = (N - j) * F) ∧
        (∀ j, ∀ hj : j + 1 < txs.length,
          (txs.get ⟨j + 1, hj⟩).inputAmount =
            (txs.get ⟨j, Nat.lt_of_succ_lt hj⟩).changeAmount) ∧
        (∀ hpos : 0 < N,
          ∃ hl : N - 1 < txs.length,
            (txs.get ⟨N - 1, hl⟩).changeAmount = F)) ∧
    (∀ V, V < N * F →
      ∃ e, CreateConsecutiveTransactions V N F signOk = .error e) ∧
    (∀ j, j < N → signOk j = false →
      ∃ e, CreateConsecutiveTransactions ((N + 1) * F) N F signOk = .error e) := by
  refine ⟨?_, ?_, ?_⟩
  · intro hsign
    have h1 : (N + 1) * F = N * F + F := by ring
    have hrun := buildConsecutive_ok F signOk hsign N F 0
    refine ⟨(List.range N).map
      (fun j => { inputAmount := (N - j) * F + F,
                  changeAmount := (N - (j + 1)) * F + F }), ?_, ?_, ?_, ?_, ?_⟩
    · rw [CreateConsecutiveTransactions, h1]
      exact hrun
    · simp
    · intro j hj
      have hjN : j < N := by simpa using hj
      have hget : ((List.range N).map
          (fun j => ChainTx.mk ((N - j) * F + F) ((N - (j + 1)) * F + F))).get
            ⟨j, hj⟩ = ChainTx.mk ((N - j) * F + F) ((N - (j + 1)) * F + F) := by
        simp [List.get_eq_getElem]
      rw [hget]
      constructor
      · have : N + 1 - j = (N - j) + 1 := by omega
        rw [this]
        ring
      · rcases Nat.lt_or_ge (j + 1) (N + 1) with h | h
        · have : N - j = (N - (j + 1)) + 1 := by omega
          rw [this]
          ring
        · omega
    · intro j hj
      have hjN : j + 1 < N := by simpa using hj
      have hget1 : ((List.range N).map
          (fun j => ChainTx.mk ((N - j) * F + F) ((N - (j + 1)) * F + F))).get
            ⟨j + 1, hj⟩ =
          ChainTx.mk ((N - (j + 1)) * F + F) ((N - (j + 1 + 1)) * F + F) := by
        simp [List.get_eq_getElem]
      have hget2 : ((List.range N).map
          (fun j => ChainTx.mk ((N - j) * F + F) ((N - (j + 1)) * F + F))).get
            ⟨j, Nat.lt_of_succ_lt hj⟩ =
          ChainTx.mk ((N - j) * F + F) ((N - (j + 1)) * F + F) := by
        simp [List.get_eq_getElem]
      rw [hget1, hget2]
    · intro hpos
      have hget : ∀ hj2, ((List.range N).map
          (fun j => ChainTx.mk ((N - j) * F + F) ((N - (j + 1)) * F + F))).get
            ⟨N - 1, hj2⟩ =
          ChainTx.mk ((N - (N - 1)) * F + F) ((N - (N - 1 + 1)) * F + F) := by
        intro hj2
        have : (N - 1) < N := by omega
        simp [List.get_eq_getElem, this]
      refine ⟨by simp; omega, ?_⟩
      rw [hget]
      have h2 : N - (N - 1 + 1) = 0 := by omega
      rw [h2]
      simp
  · intro V hV
    exact buildConsecutive_insufficient F signOk N V 0 hV
  · intro j hj hs
    have hs0 : signOk (0 + j) = false := by simpa using hs
    exact buildConsecutive_signFail F signOk N ((N + 1) * F) 0 j hj hs0

/-- Concrete instantiation of the chain-builder theorem: a seed of
`(2 + 1) * 5` with always-successful signing yields a 2-transaction
chain; a seed of 3 (below `2 * 5`) fails; and a signing failure at
index 1 fails. -/
theorem createConsecutive_chain_correct_witness :
    (∃ txs, CreateConsecutiveTransactions ((2 + 1) * 5) 2 5 (fun _ => true) =
        .ok txs ∧ txs.length = 2) ∧
    (∃ e, CreateConsecutiveTransactions 3 2 5 (fun _ => true) = .error e) ∧
    (∃ e, CreateConsecutiveTransactions ((2 + 1) * 5) 2 5 (fun k => k != 1) =
        .error e) := by
  refine ⟨?_, ?_, ?_⟩
  · obtain ⟨txs, ha, hb, _⟩ :=
      (createConsecutive_chain_correct 2 5 (fun _ => true)).1 (fun _ => rfl)
    exact ⟨txs, ha, hb⟩
  · exact (createConsecutive_chain_correct 2 5 (fun _ => true)).2.1 3 (by omega)
  · exact (createConsecutive_chain_correct 2 5 (fun k => k != 1)).2.2 1
      (by omega) (by rfl)

/-- `VerifyXChainAVABalance` (rpc_workflow_runner.go): fetch the X-chain
balance of `address` and fail unless it exactly equals the expected
value, reporting the address together with expected and actual
values. -/
def VerifyXChainAVABalance (address : String) (getBalance : Except Err Nat)
    (expectedBalance : Nat) : Except Err Unit :=
  match getBalance with
  | .error e => .error (.ctx "Failed to retrieve X Chain balance." e)
  | .ok actualBalance =>
    if actualBalance ≠ expectedBalance then
      .error (.balanceMismatch address expectedBalance actualBalance)
    else .ok ()

/-- Result of a Go function that can also panic. -/
inductive GoOutcome (α : Type) where
  | ok (a : α)
  | fail (e : Err)
  | panicked (msg : String)
deriving DecidableEq

/-- One observable step of the bombard executor's `ExecuteTest`. -/
inductive BEv where
  | createDefaultAddresses (i : Nat)
  | importGenesisFunds
  | listAddresses
  | fundXChainAddresses (addrs : List String) (amount : Nat)
  | verifyBalance (i : Nat) (expected : Nat)
  | getUTXOs (i : Nat)
  | exportKey (i : Nat)
  | buildChain (i : Nat) (amount fee : Nat)
  | issueStart (i : Nat)
  | issueDone (i : Nat)
  | wgWait
  | awaitTxs (i : Nat)
deriving DecidableEq

/-- Node responses to every call the bombard executor makes.  Secondary
clients are indexed from 0 (client index 1 of `normalClients`).  The
composite steps the executor delegates to the workflow runner
(`FundXChainAddresses`, `IssueTxList`, `AwaitXChainTxs`) and to the
chain builder appear as single oracle outcomes here; their own
internals are modelled separately above.  `getUTXOs` returns, per
account, the list of UTXO byte blobs, each either decoding to a UTXO
or failing to unmarshal.  `keySteps` summarizes the `ExportKey` /
prefix check / CB58 decode sequence for one account. -/
structure BombardOracle where
  numClients : Nat
  createAddrs : Nat → Except Err String
  importGenesisOutcome : Except Err String
  listAddrs : Except Err (List String)
  fundOutcome : Except Err Unit
  codecOutcome : Except Err Unit
  getBalance : Nat → Except Err Nat
  getUTXOs : Nat → Except Err (List (Except Err Nat))
  keySteps : Nat → Except Err Unit
  buildOutcome : Nat → Except Err Unit
  issueOutcome : Nat → Except Err Unit
  awaitOutcome : Nat → Except Err Unit

/-- The codec-decode loop over the UTXO byte blobs of one address
(bombard executor): fails at the first blob that does not unmarshal. -/
def decodeUTXOs : List (Except Err Nat) → Except Err (List Nat)
  | [] => .ok []
  | b :: rest =>
    match b with
    | .error e => .error e
    | .ok u =>
      match decodeUTXOs rest with
      | .error e => .error e
      | .ok us => .ok (u :: us)

/-- Setup loop of `ExecuteTest`: create default addresses for each
secondary client, collecting the X-chain addresses. -/
def setupLoop (o : BombardOracle) : List Nat → GoOutcome (List String) × List BEv
  | [] => (.ok [], [])
  | i :: rest =>
    match o.createAddrs i with
    | .error e =>
      (.fail (.ctx "Failed to create default addresses for client" e),
       [.createDefaultAddresses i])
    | .ok addr =>
      match setupLoop o rest with
      | (.ok addrs, tr) => (.ok (addr :: addrs), .createDefaultAddresses i :: tr)
      | (.fail e, tr) => (.fail e, .createDefaultAddresses i :: tr)
      | (.panicked m, tr) => (.panicked m, .createDefaultAddresses i :: tr)

/-- Verify loop of `ExecuteTest`: for each secondary client, verify the
funded X-chain balance exactly equals the seed amount, then fetch and
decode that address's UTXOs. -/
def verifyLoop (o : BombardOracle) (addrs : List String) (seed : Nat) :
    List Nat → GoOutcome (List (List Nat)) × List BEv
  | [] => (.ok [], [])
  | i :: rest =>
    match VerifyXChainAVABalance (addrs.getD i "") (o.getBalance i) seed with
    | .error e =>
      (.fail (.ctx "Failed to verify X Chain Balance for Client" e),
       [.verifyBalance i seed])
    | .ok _ =>
      match o.getUTXOs i with
      | .error e => (.fail e, [.verifyBalance i seed, .getUTXOs i])
      | .ok blobs =>
        match decodeUTXOs blobs with
        | .error e =>
          (.fail (.ctx "Failed to unmarshal utxo bytes." e),
           [.verifyBalance i seed, .getUTXOs i])
        | .ok utxos =>
          match verifyLoop o addrs seed rest with
          | (.ok uls, tr) =>
            (.ok (utxos :: uls), .verifyBalance i seed :: .getUTXOs i :: tr)
          | (.fail e, tr) =>
            (.fail e, .verifyBalance i seed :: .getUTXOs i :: tr)
          | (.panicked m, tr) =>
            (.panicked m, .verifyBalance i seed :: .getUTXOs i :: tr)

/-- Build loop of `ExecuteTest`: for each secondary client the source
reads `utxoLists[i][0]` with no emptiness guard — an empty decoded UTXO
list is an out-of-range panic — then runs the key-export steps and
calls the chain builder with the seed amount and fee. -/
def buildLoop (o : BombardOracle) (utxoLists : List (List Nat))
    (seed fee : Nat) : List Nat → GoOutcome Unit × List BEv
  | [] => (.ok (), [])
  | i :: rest =>
    match utxoLists.getD i [] with
    | [] => (.panicked "runtime error: index out of range", [])
    | _utxo :: _ =>
      match o.keySteps i with
      | .error e => (.fail e, [.exportKey i])
      | .ok _ =>
        match o.buildOutcome i with
        | .error e =>
          (.fail (.ctx "Failed to create transaction list." e),
           [.exportKey i, .buildChain i seed fee])
        | .ok _ =>
          match buildLoop o utxoLists seed fee rest with
          | (r, tr) => (r, .exportKey i :: .buildChain i seed fee :: tr)

/-- Issue loop of `ExecuteTest`.  The source has no `go` statement: the
closure `issueTxsAsync` is invoked synchronously in the loop body, so
each account's whole chain is submitted, and its closure returns,
before the next account's submission starts; on a submission error the
closure panics (`panic(err)`). -/
def issueLoop (o : BombardOracle) : List Nat → GoOutcome Unit × List BEv
  | [] => (.ok (), [])
  | i :: rest =>
    match o.issueOutcome i with
    | .error _e =>
      (.panicked "panic: failed to issue transaction list", [.issueStart i])
    | .ok _ =>
      match issueLoop o rest with
      | (r, tr) => (r, .issueStart i :: .issueDone i :: tr)

/-- Confirm loop of `ExecuteTest`.  Faithful to the source bug: the
loop body computes `stacktrace.Propagate(err, "Failed to confirm
transactions.")` but never returns it, so both outcomes continue the
loop and the loop as a whole cannot fail. -/
def confirmLoop (o : BombardOracle) : List Nat → List BEv
  | [] => []
  | i :: rest =>
    match o.awaitOutcome i with
    | .error _e => .awaitTxs i :: confirmLoop o rest
    | .ok _ => .awaitTxs i :: confirmLoop o rest

/-- `2 ^ 64`: Go `uint64` arithmetic is arithmetic modulo this. -/
def U64 : Nat := 2 ^ 64

/-- `seedAmount := (e.numTxs + 1) * e.txFee` in `uint64` arithmetic
(bombard executor). -/
def seedAmount (numTxs txFee : Nat) : Nat :=
  ((numTxs + 1) % U64) * txFee % U64

/-- `bombardExecutor.ExecuteTest` (bombard executor): reads
`normalClients[0]` unguarded (empty client list panics), creates
addresses for each secondary client, imports genesis funds, checks the
genesis address list has exactly one entry, funds every secondary
X-chain address with the seed amount, verifies each funded balance and
collects UTXOs, builds one chain per account, issues all chains, and
finally awaits all transaction IDs (discarding any failure, per the
source). -/
def ExecuteTest (o : BombardOracle) (numTxs txFee : Nat) :
    GoOutcome Unit × List BEv :=
  if o.numClients = 0 then
    (.panicked "runtime error: index out of range", [])
  else
    let secondaries := List.range (o.numClients - 1)
    match setupLoop o secondaries with
    | (.fail e, tr1) => (.fail e, tr1)
    | (.panicked m, tr1) => (.panicked m, tr1)
    | (.ok addrs, tr1) =>
      match o.importGenesisOutcome with
      | .error e =>
        (.fail (.ctx "Failed to fund genesis client." e),
         tr1 ++ [.importGenesisFunds])
      | .ok _ =>
        match o.listAddrs with
        | .error e =>
          (.fail (.ctx "Failed to get genesis client addresses" e),
           tr1 ++ [.importGenesisFunds, .listAddresses])
        | .ok gAddrs =>
          if gAddrs.length ≠ 1 then
            (.fail (.plain "Found unexpected number of addresses for genesis client"),
             tr1 ++ [.importGenesisFunds, .listAddresses])
          else
            let seed := seedAmount numTxs txFee
            let tr2 := tr1 ++ [.importGenesisFunds, .listAddresses,
                               .fundXChainAddresses addrs seed]
            match o.fundOutcome with
            | .error e =>
              (.fail (.ctx "Failed to fund X Chain Addresses for Clients" e),
               tr2)
            | .ok _ =>
              match o.codecOutcome with
              | .error e => (.fail (.ctx "Failed to initialize codec." e), tr2)
              | .ok _ =>
                match verifyLoop o addrs seed secondaries with
                | (.fail e, tr3) => (.fail e, tr2 ++ tr3)
                | (.panicked m, tr3) => (.panicked m, tr2 ++ tr3)
                | (.ok utxoLists, tr3) =>
                  match buildLoop o utxoLists seed txFee secondaries with
                  | (.fail e, tr4) => (.fail e, tr2 ++ tr3 ++ tr4)
                  | (.panicked m, tr4) => (.panicked m, tr2 ++ tr3 ++ tr4)
                  | (.ok _, tr4) =>
                    match issueLoop o secondaries with
                    | (.fail e, tr5) => (.fail e, tr2 ++ tr3 ++ tr4 ++ tr5)
                    | (.panicked m, tr5) =>
                      (.panicked m, tr2 ++ tr3 ++ tr4 ++ tr5)
                    | (.ok _, tr5) =>
                      (.ok (), tr2 ++ tr3 ++ tr4 ++ tr5 ++ [.wgWait] ++
                        confirmLoop o secondaries)

/-- A fully successful node behavior for the bombard executor with the
given client count and parameters: every call succeeds, every funded
balance equals the seed amount, and every address owns one decodable
UTXO. -/
def happyOracle (numClients numTxs txFee : Nat) : BombardOracle where
  numClients := numClients
  createAddrs := fun _ => .ok "addr"
  importGenesisOutcome := .ok "genesis"
  listAddrs := .ok ["genesisAddr"]
  fundOutcome := .ok ()
  codecOutcome := .ok ()
  getBalance := fun _ => .ok (seedAmount numTxs txFee)
  getUTXOs := fun _ => .ok [.ok (seedAmount numTxs txFee)]
  keySteps := fun _ => .ok ()
  buildOutcome := fun _ => .ok ()
  issueOutcome := fun _ => .ok ()
  awaitOutcome := fun _ => .ok ()

/-- Two clients (one bombarding account), all phases healthy except
that awaiting the account's issued transactions fails: transaction 0 is
rejected. -/
def confirmFailOracle : BombardOracle :=
  { happyOracle 2 1 1 with awaitOutcome := fun _ => .error (.rejectedX 0) }

/-- C5 (code bug): a failed confirmation does not fail the run.  On
`confirmFailOracle` the confirm phase's acceptance wait for account 0
returns an error, and the confirm step for that account is reached
(the `awaitTxs 0` event is in the trace), yet `ExecuteTest` returns
success: the source computes `stacktrace.Propagate(err, ...)` on the
failure but never returns it. -/
theorem executeTest_ignores_confirm_failure :
    (ExecuteTest confirmFailOracle 1 1).1 = .ok () ∧
    (ExecuteTest confirmFailOracle 1 1).2.contains (.awaitTxs 0) = true ∧
    confirmFailOracle.awaitOutcome 0 = .error (.rejectedX 0) := by
  refine ⟨?_, ?_, ?_⟩ <;> rfl

/-- Three clients: two bombarding accounts, all calls healthy. -/
def issueSeqOracle : BombardOracle := happyOracle 3 1 1

/-- Detects issue-phase events. -/
def isIssueEv : BEv → Bool
  | .issueStart _ => true
  | .issueDone _ => true
  | _ => false

/-- C6 (code bug): the Issue phase is not concurrent.  With two
bombarding accounts, the issue-phase events of the run are strictly
sequential: account 0's chain submission completes (`issueDone 0`)
before account 1's begins (`issueStart 1`), because the source calls
the `issueTxsAsync` closure synchronously — there is no `go` statement
— leaving the WaitGroup join trivial. -/
theorem executeTest_issue_phase_sequential :
    (ExecuteTest issueSeqOracle 1 1).2.filter isIssueEv =
      [.issueStart 0, .issueDone 0, .issueStart 1, .issueDone 1] := by
  rfl

/-- Checks the amounts the executor passes around: every funding event
and every balance-verification event must carry exactly the seed
amount. -/
def seedEventOK (seed : Nat) : BEv → Bool
  | .fundXChainAddresses _ a => a == seed
  | .verifyBalance _ a => a == seed
  | _ => true

/-- Detects chain-build events. -/
def isBuildEv : BEv → Bool
  | .buildChain _ _ _ => true
  | _ => false

/-- Detects balance-verification events. -/
def isVerifyEv : BEv → Bool
  | .verifyBalance _ _ => true
  | _ => false

/-- Scans a trace and checks that no balance verification happens after
a chain build has started: the boolean state records whether a build
event has been seen. -/
def verifyBeforeBuildOK : Bool → List BEv → Bool
  | _, [] => true
  | seenBuild, ev :: rest =>
    if isBuildEv ev then verifyBeforeBuildOK true rest
    else if isVerifyEv ev then
      !seenBuild && verifyBeforeBuildOK seenBuild rest
    else verifyBeforeBuildOK seenBuild rest

theorem vbb_noVerify : ∀ (l : List BEv),
    l.all (fun e => !isVerifyEv e) = true →
    ∀ b, verifyBeforeBuildOK b l = true := by
  intro l
  induction l with
  | nil => intro _ b; rfl
  | cons ev rest ih =>
    intro h b
    simp only [List.all_cons, Bool.and_eq_true] at h
    by_cases hb : isBuildEv ev = true
    · simp [verifyBeforeBuildOK, hb, ih h.2 true]
    · have hv : isVerifyEv ev = false := by
        rcases h.1 with h1
        cases hev : isVerifyEv ev
        · rfl
        · rw [hev] at h1; simp at h1
      simp [verifyBeforeBuildOK, hb, hv, ih h.2 b]

theorem vbb_of_split (A B : List BEv)
    (hA : A.all (fun e => !isBuildEv e) = true)
    (hB : B.all (fun e => !isVerifyEv e) = true) :
    verifyBeforeBuildOK false (A ++ B) = true := by
  induction A with
  | nil =>
    simp only [List.nil_append]
    exact vbb_noVerify B hB false
  | cons ev rest ih =>
    simp only [List.all_cons, Bool.and_eq_true] at hA
    have hbe : isBuildEv ev = false := by
      rcases hA.1 with h1
      cases hev : isBuildEv ev
      · rfl
      · rw [hev] at h1; simp at h1
    by_cases hv : isVerifyEv ev = true
    · simp [verifyBeforeBuildOK, List.cons_append, hbe, hv, ih hA.2]
    · simp [verifyBeforeBuildOK, List.cons_append, hbe, hv, ih hA.2]

theorem setupLoop_trace_cons (o : BombardOracle) (i : Nat) (rest : List Nat) :
    (setupLoop o (i :: rest)).2 =
      (match o.createAddrs i with
       | .error _ => [BEv.createDefaultAddresses i]
       | .ok _ => BEv.createDefaultAddresses i :: (setupLoop o rest).2) := by
  rcases hc : o.createAddrs i with e | addr
  · simp [setupLoop, hc]
  · rcases hr : setupLoop o rest with ⟨res, tr⟩
    cases res <;> simp [setupLoop, hc, hr]

theorem setupLoop_all (o : BombardOracle) (p : BEv → Bool)
    (hp : ∀ i, p (BEv.createDefaultAddresses i) = true) :
    ∀ (l : List Nat), (setupLoop o l).2.all p = true := by
  intro l
  induction l with
  | nil => rfl
  | cons i rest ih =>
    rw [setupLoop_trace_cons]
    rcases hc : o.createAddrs i with e | addr <;> simp [hp, ih]

theorem verifyLoop_trace_cons (o : BombardOracle) (addrs : List String)
    (seed : Nat) (i : Nat) (rest : List Nat) :
    (verifyLoop o addrs seed (i :: rest)).2 =
      (match VerifyXChainAVABalance (addrs.getD i "") (o.getBalance i) seed with
       | .error _ => [BEv.verifyBalance i seed]
       | .ok _ =>
         match o.getUTXOs i with
         | .error _ => [BEv.verifyBalance i seed, BEv.getUTXOs i]
         | .ok blobs =>
           match decodeUTXOs blobs with
           | .error _ => [BEv.verifyBalance i seed, BEv.getUTXOs i]
           | .ok _ => BEv.verifyBalance i seed :: BEv.getUTXOs i ::
               (verifyLoop o addrs seed rest).2) := by
  rcases hv : VerifyXChainAVABalance (addrs.getD i "") (o.getBalance i) seed
      with e | u
  · simp only [verifyLoop, hv]
  · rcases hg : o.getUTXOs i with e | blobs
    · simp only [verifyLoop, hv, hg]
    · rcases hd : decodeUTXOs blobs with e | us
      · simp only [verifyLoop, hv, hg, hd]
      · rcases hr : verifyLoop o addrs seed rest with ⟨res, tr⟩
        cases res <;> simp only [verifyLoop, hv, hg, hd, hr]

theorem verifyLoop_all (o : BombardOracle) (addrs : List String) (seed : Nat)
    (p : BEv → Bool)
    (hpv : ∀ i, p (BEv.verifyBalance i seed) = true)
    (hpu : ∀ i, p (BEv.getUTXOs i) = true) :
    ∀ (l : List Nat), (verifyLoop o addrs seed l).2.all p = true := by
  intro l
  induction l with
  | nil => rfl
  | cons i rest ih =>
    rw [verifyLoop_trace_cons]
    rcases hv : VerifyXChainAVABalance (addrs.getD i "") (o.getBalance i) seed
        with e | u
    · simp only [hv]
      simp [hpv]
    · rcases hg : o.getUTXOs i with e | blobs
      · simp only [hv, hg]
        simp [hpv, hpu]
      · rcases hd : decodeUTXOs blobs with e | us
        · simp only [hv, hg, hd]
          simp [hpv, hpu]
        · simp only [hv, hg, hd]
          simp [hpv, hpu, ih]

theorem buildLoop_trace_cons (o : BombardOracle) (uls : List (List Nat))
    (seed fee : Nat) (i : Nat) (rest : List Nat) :
    (buildLoop o uls seed fee (i :: rest)).2 =
      (match uls.getD i [] with
       | [] => []
       | _ :: _ =>
         match o.keySteps i with
         | .error _ => [BEv.exportKey i]
         | .ok _ =>
           match o.buildOutcome i with
           | .error _ => [BEv.exportKey i, BEv.buildChain i seed fee]
           | .ok _ => BEv.exportKey i :: BEv.buildChain i seed fee ::
               (buildLoop o uls seed fee rest).2) := by
  rcases hu : uls.getD i [] with _ | ⟨u0, us⟩
  · simp only [buildLoop, hu]
  · rcases hk : o.keySteps i with e | _
    · simp only [buildLoop, hu, hk]
    · rcases hb : o.buildOutcome i with e | _
      · simp only [buildLoop, hu, hk, hb]
      · rcases hr : buildLoop o uls seed fee rest with ⟨res, tr⟩
        simp only [buildLoop, hu, hk, hb, hr]

theorem buildLoop_all (o : BombardOracle) (uls : List (List Nat))
    (seed fee : Nat) (p : BEv → Bool)
    (hpk : ∀ i, p (BEv.exportKey i) = true)
    (hpb : ∀ i, p (BEv.buildChain i seed fee) = true) :
    ∀ (l : List Nat), (buildLoop o uls seed fee l).2.all p = true := by
  intro l
  induction l with
  | nil => rfl
  | cons i rest ih =>
    rw [buildLoop_trace_cons]
    rcases hu : uls.getD i [] with _ | ⟨u0, us⟩
    · simp only [hu]
      simp
    · rcases hk : o.keySteps i with e | _
      · simp only [hu, hk]
        simp [hpk]
      · rcases hb : o.buildOutcome i with e | _
        · simp only [hu, hk, hb]
          simp [hpk, hpb]
        · simp only [hu, hk, hb]
          simp [hpk, hpb, ih]

theorem issueLoop_trace_cons (o : BombardOracle) (i : Nat) (rest : List Nat) :
    (issueLoop o (i :: rest)).2 =
      (match o.issueOutcome i with
       | .error _ => [BEv.issueStart i]
       | .ok _ => BEv.issueStart i :: BEv.issueDone i :: (issueLoop o rest).2) := by
  rcases hs : o.issueOutcome i with e | _
  · simp [issueLoop, hs]
  · rcases hr : issueLoop o rest with ⟨res, tr⟩
    simp [issueLoop, hs, hr]

theorem issueLoop_all (o : BombardOracle) (p : BEv → Bool)
    (hps : ∀ i, p (BEv.issueStart i) = true)
    (hpd : ∀ i, p (BEv.issueDone i) = true) :
    ∀ (l : List Nat), (issueLoop o l).2.all p = true := by
  intro l
  induction l with
  | nil => rfl
  | cons i rest ih =>
    rw [issueLoop_trace_cons]
    rcases hs : o.issueOutcome i with e | _
    · simp [hps]
    · simp [hps, hpd, ih]

theorem confirmLoop_all (o : BombardOracle) (p : BEv → Bool)
    (hpa : ∀ i, p (BEv.awaitTxs i) = true) :
    ∀ (l : List Nat), (confirmLoop o l).all p = true := by
  intro l
  induction l with
  | nil => rfl
  | cons i rest ih =>
    rcases hs : o.awaitOutcome i with e | _ <;>
      simp [confirmLoop, hs, hpa, ih]

theorem all_append2 (p : BEv → Bool) (l1 l2 : List BEv)
    (h1 : l1.all p = true) (h2 : l2.all p = true) :
    (l1 ++ l2).all p = true := by
  simp [List.all_append, h1, h2]

theorem executeTest_trace_split (o : BombardOracle) (numTxs txFee : Nat) :
    ∃ A B, (ExecuteTest o numTxs txFee).2 = A ++ B ∧
      A.all (fun e => !isBuildEv e) = true ∧
      B.all (fun e => !isVerifyEv e) = true ∧
      A.all (seedEventOK (seedAmount numTxs txFee)) = true ∧
      B.all (seedEventOK (seedAmount numTxs txFee)) = true := by
  by_cases h0 : o.numClients = 0
  · refine ⟨[], [], ?_, rfl, rfl, rfl, rfl⟩
    simp [ExecuteTest, h0]
  · rcases hsetup : setupLoop o (List.range (o.numClients - 1)) with ⟨res1, tr1⟩
    have h1b : tr1.all (fun e => !isBuildEv e) = true := by
      have := setupLoop_all o (fun e => !isBuildEv e) (fun i => rfl)
        (List.range (o.numClients - 1))
      rw [hsetup] at this; exact this
    have h1s : tr1.all (seedEventOK (seedAmount numTxs txFee)) = true := by
      have := setupLoop_all o (seedEventOK (seedAmount numTxs txFee))
        (fun i => rfl) (List.range (o.numClients - 1))
      rw [hsetup] at this; exact this
    cases res1 with
    | fail e1 =>
      refine ⟨tr1, [], ?_, h1b, rfl, h1s, rfl⟩
      simp [ExecuteTest, h0, hsetup]
    | panicked m1 =>
      refine ⟨tr1, [], ?_, h1b, rfl, h1s, rfl⟩
      simp [ExecuteTest, h0, hsetup]
    | ok addrs =>
      rcases himp : o.importGenesisOutcome with e2 | g
      · refine ⟨tr1 ++ [BEv.importGenesisFunds], [], ?_,
          all_append2 _ _ _ h1b rfl, rfl,
          all_append2 _ _ _ h1s rfl, rfl⟩
        simp [ExecuteTest, h0, hsetup, himp]
      · rcases hlist : o.listAddrs with e3 | gAddrs
        · refine ⟨tr1 ++ [BEv.importGenesisFunds, BEv.listAddresses], [], ?_,
            all_append2 _ _ _ h1b rfl, rfl,
            all_append2 _ _ _ h1s rfl, rfl⟩
          simp [ExecuteTest, h0, hsetup, himp, hlist]
        · by_cases hlen : gAddrs.length = 1
          · have hmid_b : ([BEv.importGenesisFunds, BEv.listAddresses,
                BEv.fundXChainAddresses addrs (seedAmount numTxs txFee)]).all
                  (fun e => !isBuildEv e) = true := rfl
            have hmid_s : ([BEv.importGenesisFunds, BEv.listAddresses,
                BEv.fundXChainAddresses addrs (seedAmount numTxs txFee)]).all
                  (seedEventOK (seedAmount numTxs txFee)) = true := by
              simp [seedEventOK]
            rcases hfund : o.fundOutcome with e4 | u4
            · refine ⟨tr1 ++ [BEv.importGenesisFunds, BEv.listAddresses,
                BEv.fundXChainAddresses addrs (seedAmount numTxs txFee)], [],
                ?_, all_append2 _ _ _ h1b hmid_b, rfl,
                all_append2 _ _ _ h1s hmid_s, rfl⟩
              simp [ExecuteTest, h0, hsetup, himp, hlist, hlen, hfund]
            · rcases hcodec : o.codecOutcome with e5 | u5
              · refine ⟨tr1 ++ [BEv.importGenesisFunds, BEv.listAddresses,
                  BEv.fundXChainAddresses addrs (seedAmount numTxs txFee)], [],
                  ?_, all_append2 _ _ _ h1b hmid_b, rfl,
                  all_append2 _ _ _ h1s hmid_s, rfl⟩
                simp [ExecuteTest, h0, hsetup, himp, hlist, hlen, hfund, hcodec]
              · rcases hver : verifyLoop o addrs (seedAmount numTxs txFee)
                    (List.range (o.numClients - 1)) with ⟨res3, tr3⟩
                have h3b : tr3.all (fun e => !isBuildEv e) = true := by
                  have := verifyLoop_all o addrs (seedAmount numTxs txFee)
                    (fun e => !isBuildEv e) (fun i => rfl) (fun i => rfl)
                    (List.range (o.numClients - 1))
                  rw [hver] at this; exact this
                have h3s : tr3.all (seedEventOK (seedAmount numTxs txFee))
                    = true := by
                  have := verifyLoop_all o addrs (seedAmount numTxs txFee)
                    (seedEventOK (seedAmount numTxs txFee))
                    (fun i => by simp [seedEventOK]) (fun i => rfl)
                    (List.range (o.numClients - 1))
                  rw [hver] at this; exact this
                have hAbuild := all_append2 _ _ tr3
                  (all_append2 _ _ _ h1b hmid_b) h3b
                have hAseed := all_append2 _ _ tr3
                  (all_append2 _ _ _ h1s hmid_s) h3s
                cases res3 with
                | fail e6 =>
                  refine ⟨(tr1 ++ [BEv.importGenesisFunds, BEv.listAddresses,
                    BEv.fundXChainAddresses addrs (seedAmount numTxs txFee)]) ++
                      tr3, [], ?_, hAbuild, rfl, hAseed, rfl⟩
                  simp [ExecuteTest, h0, hsetup, himp, hlist, hlen, hfund,
                    hcodec, hver, List.append_assoc]
                | panicked m6 =>
                  refine ⟨(tr1 ++ [BEv.importGenesisFunds, BEv.listAddresses,
                    BEv.fundXChainAddresses addrs (seedAmount numTxs txFee)]) ++
                      tr3, [], ?_, hAbuild, rfl, hAseed, rfl⟩
                  simp [ExecuteTest, h0, hsetup, himp, hlist, hlen, hfund,
                    hcodec, hver, List.append_assoc]
                | ok uls =>
                  rcases hbuild : buildLoop o uls (seedAmount numTxs txFee)
                      txFee (List.range (o.numClients - 1)) with ⟨res4, tr4⟩
                  have h4v : tr4.all (fun e => !isVerifyEv e) = true := by
                    have := buildLoop_all o uls (seedAmount numTxs txFee) txFee
                      (fun e => !isVerifyEv e) (fun i => rfl) (fun i => rfl)
                      (List.range (o.numClients - 1))
                    rw [hbuild] at this; exact this
                  have h4s : tr4.all (seedEventOK (seedAmount numTxs txFee))
                      = true := by
                    have := buildLoop_all o uls (seedAmount numTxs txFee) txFee
                      (seedEventOK (seedAmount numTxs txFee))
                      (fun i => rfl) (fun i => rfl)
                      (List.range (o.numClients - 1))
                    rw [hbuild] at this; exact this
                  cases res4 with
                  | fail e7 =>
                    refine ⟨(tr1 ++ [BEv.importGenesisFunds, BEv.listAddresses,
                      BEv.fundXChainAddresses addrs (seedAmount numTxs txFee)]) ++
                        tr3, tr4, ?_, hAbuild, h4v, hAseed, h4s⟩
                    simp [ExecuteTest, h0, hsetup, himp, hlist, hlen, hfund,
                      hcodec, hver, hbuild, List.append_assoc]
                  | panicked m7 =>
                    refine ⟨(tr1 ++ [BEv.importGenesisFunds, BEv.listAddresses,
                      BEv.fundXChainAddresses addrs (seedAmount numTxs txFee)]) ++
                        tr3, tr4, ?_, hAbuild, h4v, hAseed, h4s⟩
                    simp [ExecuteTest, h0, hsetup, himp, hlist, hlen, hfund,
                      hcodec, hver, hbuild, List.append_assoc]
                  | ok u7 =>
                    rcases hissue : issueLoop o (List.range (o.numClients - 1))
                        with ⟨res5, tr5⟩
                    have h5v : tr5.all (fun e => !isVerifyEv e) = true := by
                      have := issueLoop_all o (fun e => !isVerifyEv e)
                        (fun i => rfl) (fun i => rfl)
                        (List.range (o.numClients - 1))
                      rw [hissue] at this; exact this
                    have h5s : tr5.all (seedEventOK (seedAmount numTxs txFee))
                        = true := by
                      have := issueLoop_all o
                        (seedEventOK (seedAmount numTxs txFee))
                        (fun i => rfl) (fun i => rfl)
                        (List.range (o.numClients - 1))
                      rw [hissue] at this; exact this
                    cases res5 with
                    | fail e8 =>
                      refine ⟨(tr1 ++ [BEv.importGenesisFunds,
                        BEv.listAddresses,
                        BEv.fundXChainAddresses addrs (seedAmount numTxs txFee)]) ++
                          tr3, tr4 ++ tr5, ?_, hAbuild,
                        all_append2 _ _ _ h4v h5v, hAseed,
                        all_append2 _ _ _ h4s h5s⟩
                      simp [ExecuteTest, h0, hsetup, himp, hlist, hlen, hfund,
                        hcodec, hver, hbuild, hissue, List.append_assoc]
                    | panicked m8 =>
                      refine ⟨(tr1 ++ [BEv.importGenesisFunds,
                        BEv.listAddresses,
                        BEv.fundXChainAddresses addrs (seedAmount numTxs txFee)]) ++
                          tr3, tr4 ++ tr5, ?_, hAbuild,
                        all_append2 _ _ _ h4v h5v, hAseed,
                        all_append2 _ _ _ h4s h5s⟩
                      simp [ExecuteTest, h0, hsetup, himp, hlist, hlen, hfund,
                        hcodec, hver, hbuild, hissue, List.append_assoc]
                    | ok u8 =>
                      have hcv : (confirmLoop o
                          (List.range (o.numClients - 1))).all
                            (fun e => !isVerifyEv e) = true :=
                        confirmLoop_all o _ (fun i => rfl) _
                      have hcs : (confirmLoop o
                          (List.range (o.numClients - 1))).all
                            (seedEventOK (seedAmount numTxs txFee)) = true :=
                        confirmLoop_all o _ (fun i => rfl) _
                      refine ⟨(tr1 ++ [BEv.importGenesisFunds,
                        BEv.listAddresses,
                        BEv.fundXChainAddresses addrs (seedAmount numTxs txFee)]) ++
                          tr3,
                        tr4 ++ tr5 ++ [BEv.wgWait] ++
                          confirmLoop o (List.range (o.numClients - 1)),
                        ?_, hAbuild,
                        all_append2 _ _ _
                          (all_append2 _ _ _ (all_append2 _ _ _ h4v h5v) rfl)
                          hcv,
                        hAseed,
                        all_append2 _ _ _
                          (all_append2 _ _ _ (all_append2 _ _ _ h4s h5s) rfl)
                          hcs⟩
                      simp [ExecuteTest, h0, hsetup, himp, hlist, hlen, hfund,
                        hcodec, hver, hbuild, hissue, List.append_assoc]
          · refine ⟨tr1 ++ [BEv.importGenesisFunds, BEv.listAddresses], [], ?_,
              all_append2 _ _ _ h1b rfl, rfl,
              all_append2 _ _ _ h1s rfl, rfl⟩
            simp [ExecuteTest, h0, hsetup, himp, hlist, hlen]

/-- C7: in every run of the bombard executor, whatever the node does,
the seed amount is exactly `(numTxs + 1) * txFee` computed in `uint64`
arithmetic; the funding call and every per-account balance verification
carry exactly that seed amount; every balance verification happens
before any chain is built; and the balance check itself succeeds iff
the actual balance exactly equals the expected value, failing on any
mismatch with an error carrying both the expected and the actual
value. -/
theorem executeTest_seed_amount_correct (o : BombardOracle)
    (numTxs txFee : Nat) :
    seedAmount numTxs txFee = (numTxs + 1) * txFee % U64 ∧
    (ExecuteTest o numTxs txFee).2.all
      (seedEventOK (seedAmount numTxs txFee)) = true ∧
    verifyBeforeBuildOK false (ExecuteTest o numTxs txFee).2 = true ∧
    (∀ addr bal expected,
      (VerifyXChainAVABalance addr (.ok bal) expected = .ok () ↔
        bal = expected)) ∧
    (∀ addr bal expected, bal ≠ expected →
      VerifyXChainAVABalance addr (.ok bal) expected =
        .error (.balanceMismatch addr expected bal)) := by
  obtain ⟨A, B, hAB, hAb, hBv, hAs, hBs⟩ :=
    executeTest_trace_split o numTxs txFee
  refine ⟨?_, ?_, ?_, ?_, ?_⟩
  · unfold seedAmount
    exact Nat.mod_mul_mod
  · rw [hAB]
    exact all_append2 _ _ _ hAs hBs
  · rw [hAB]
    exact vbb_of_split A B hAb hBv
  · intro addr bal expected
    constructor
    · intro h
      by_cases hbe : bal = expected
      · exact hbe
      · simp [VerifyXChainAVABalance, hbe] at h
    · intro h
      simp [VerifyXChainAVABalance, h]
  · intro addr bal expected h
    simp [VerifyXChainAVABalance, h]

/-- Concrete instantiation of the seed-amount theorem: parameters
`numTxs = 3`, `txFee = 7`, and a mismatching balance 5 against
expected 6. -/
theorem executeTest_seed_amount_correct_witness :
    seedAmount 3 7 = (3 + 1) * 7 % U64 ∧
    VerifyXChainAVABalance "a" (.ok 5) 6 =
      .error (.balanceMismatch "a" 6 5) := by
  have h := executeTest_seed_amount_correct (happyOracle 2 3 7) 3 7
  exact ⟨h.1, h.2.2.2.2 "a" 5 6 (by omega)⟩

/-- C10: `ExecuteTest` indexes its inputs without guards.  With an
empty client list its very first step (`e.normalClients[0]`) is an
out-of-range panic before anything happens; and in a run with one
funded account whose set-up, funding and verification phases all
succeed but whose UTXO query decodes zero UTXOs, the build phase's
unguarded `utxoLists[i][0]` read panics — in both cases the operation
panics rather than returning an error. -/
theorem executeTest_unguarded_indexing (o : BombardOracle)
    (numTxs txFee : Nat) (a g gl : String) :
    (o.numClients = 0 →
      ExecuteTest o numTxs txFee =
        (.panicked "runtime error: index out of range", [])) ∧
    (o.numClients = 2 →
      o.createAddrs 0 = .ok a →
      o.importGenesisOutcome = .ok g →
      o.listAddrs = .ok [gl] →
      o.fundOutcome = .ok () →
      o.codecOutcome = .ok () →
      o.getBalance 0 = .ok (seedAmount numTxs txFee) →
      o.getUTXOs 0 = .ok [] →
      (ExecuteTest o numTxs txFee).1 =
        .panicked "runtime error: index out of range") := by
  constructor
  · intro h
    simp [ExecuteTest, h]
  · intro h2 hca hig hla hfo hco hgb hgu
    simp [ExecuteTest, h2, hca, hig, hla, hfo, hco, hgb, hgu,
      setupLoop, verifyLoop, buildLoop, decodeUTXOs, VerifyXChainAVABalance]

/-- An oracle with an empty client list. -/
def zeroClientsOracle : BombardOracle :=
  { happyOracle 1 1 1 with numClients := 0 }

/-- A two-client oracle, healthy except that the UTXO query for the
funded address returns no UTXOs. -/
def emptyUTXOOracle : BombardOracle :=
  { happyOracle 2 1 1 with getUTXOs := fun _ => .ok [] }

/-- Concrete instantiation of the unguarded-indexing theorem: an empty
client list panics immediately, and an empty decoded UTXO list panics
in the build phase. -/
theorem executeTest_unguarded_indexing_witness :
    ExecuteTest zeroClientsOracle 1 1 =
      (.panicked "runtime error: index out of range", []) ∧
    (ExecuteTest emptyUTXOOracle 1 1).1 =
      .panicked "runtime error: index out of range" := by
  constructor
  · exact (executeTest_unguarded_indexing zeroClientsOracle 1 1 "addr"
      "genesis" "genesisAddr").1 rfl
  · exact (executeTest_unguarded_indexing emptyUTXOOracle 1 1 "addr"
      "genesis" "genesisAddr").2 rfl rfl rfl rfl rfl rfl rfl rfl
